import Mathlib

/-!
A verification development for the rssutil package (an RSS 2.0 feed
reader with periodic re-fetching, diffing, and notifier dispatch).

The Go sources are shallowly embedded below.  Conventions used
throughout:

* machine integers ("int", "time.Duration" in nanoseconds) are Int;
* "time.Time" instants are Int seconds on the proleptic Gregorian
  timeline ("Instant");
* Go nil pointers for the nullable "*RFC822" publish dates are Option;
* runtime faults (nil dereference, string slice out of bounds) are an
  explicit "GoPanic" value, since the Go code can fault on reachable
  inputs;
* I/O (HTTP fetch, file read, XML decode) is passed in as an oracle
  function from the source string to either an error or the decoded,
  normalized RSS value; the receiver mutation done by the methods is
  modeled by returning the post state explicitly;
* the background "Serve" loop is modeled as a fold over a finite list
  of scheduler signals (a tick of the ticker, or the stop signal), and
  the asynchronous notifier invocations are recorded as a trace of
  dispatched item batches.
-/

namespace Rssutil

/-- Absolute instants, in seconds. -/
abbrev Instant := Int

/-- Opaque error values produced by acquisition or parsing. -/
abbrev RssError := String

/-- Go runtime faults that the embedded code can hit. -/
inductive GoPanic
  | nilDeref
  | sliceBounds
deriving DecidableEq

/-! ## Data model (rss struct definitions) -/

/-- Category sub-element of a channel or item. -/
structure RSSCategory where
  value : String
  domain : String
deriving DecidableEq

/-- Cloud sub-element of a channel. -/
structure RSSCloud where
  domain : String
  port : Int
  path : String
  registerProcedure : String
  protocol : String
deriving DecidableEq

/-- Image sub-element of a channel. -/
structure RSSImage where
  url : String
  title : String
  link : String
  width : Int
  height : Int
  description : String
deriving DecidableEq

/-- TextInput sub-element of a channel. -/
structure RSSTextInput where
  title : String
  description : String
  name : String
  link : String
deriving DecidableEq

/-- Enclosure sub-element of an item. -/
structure RSSEnclosure where
  url : String
  length : Int
  type : String
deriving DecidableEq

/-- Source sub-element of an item. -/
structure RSSSource where
  value : String
  url : String
deriving DecidableEq

/-- One feed item.  The nullable publish date (a Go "*RFC822") is an
Option; none is the nil pointer, produced when the document carries no
pubDate element. -/
structure RSSItem where
  title : String
  link : String
  description : String
  author : String
  categories : List RSSCategory
  comments : String
  enclosure : Option RSSEnclosure
  guid : String
  pubDate : Option Instant
  source : Option RSSSource
deriving DecidableEq

/-- Channel metadata and its item sequence. -/
structure RSSChannel where
  title : String
  link : String
  description : String
  language : String
  copyright : String
  managingEditor : String
  webMaster : String
  pubDate : Option Instant
  lastBuildDate : Option Instant
  categories : List RSSCategory
  generator : String
  docs : String
  cloud : Option RSSCloud
  ttl : Int
  image : Option RSSImage
  rating : String
  textInput : Option RSSTextInput
  skipHours : List Int
  skipDays : List Int
  items : List RSSItem
deriving DecidableEq

/-- The root feed value.  The registered notifier callbacks are opaque;
only their number is observable in the model (the dispatch trace
records one batch per registered callback). -/
structure RSS where
  version : String
  channel : RSSChannel
  origin : String
  source : String
  lastUpdateAt : Instant
  notifierCount : Nat
deriving DecidableEq

/-! ## Whitespace trimming (the normalization pass of Feed) -/

/-- Membership in the cutset " \t\n" used by the trimming pass. -/
def isCutChar (c : Char) : Bool := c = ' ' || c = '\t' || c = '\n'

/-- strings.Trim with cutset " \t\n" on a character list. -/
def trimList (l : List Char) : List Char :=
  ((l.dropWhile isCutChar).reverse.dropWhile isCutChar).reverse

/-- strings.Trim(s, " \t\n"). -/
def goTrim (s : String) : String := String.mk (trimList s.toList)

/-- The post-decode normalization pass of Feed: trims the channel
title, description and copyright and each item title and description,
records the origin bytes and stamps the last-update time.  The XML
decode itself is external; this function receives the decoded value. -/
def feedNormalize (rss : RSS) (b : String) (now : Instant) : RSS :=
  { rss with
    channel :=
      { rss.channel with
        title := goTrim rss.channel.title
        description := goTrim rss.channel.description
        copyright := goTrim rss.channel.copyright
        items := rss.channel.items.map fun it =>
          { it with title := goTrim it.title, description := goTrim it.description } }
    origin := b
    lastUpdateAt := now }

/-! ## The date comparison and the diff of Update -/

/-- items[i].PubDate.After(latest.PubDate) for nullable dates: a Go
method call through a nil pointer, or a nil argument dereferenced
inside After, faults. -/
def goAfter (a b : Option Instant) : Except GoPanic Bool :=
  match a, b with
  | some x, some y => .ok (decide (x > y))
  | _, _ => .error .nilDeref

/-- The scan loop of latestItem over the items after the first,
carrying the current maximum. -/
def latestItemGo : List RSSItem → RSSItem → Except GoPanic RSSItem
  | [], cur => .ok cur
  | it :: rest, cur =>
    match goAfter it.pubDate cur.pubDate with
    | .error p => .error p
    | .ok b => latestItemGo rest (if b then it else cur)

/-- rss.latestItem(): none when the item sequence is empty, otherwise
the first item of maximum publish date. -/
def latestItem (items : List RSSItem) : Except GoPanic (Option RSSItem) :=
  match items with
  | [] => .ok none
  | it :: rest => (latestItemGo rest it).map some

/-- The diff loop of Update: collect, in order, the fresh items whose
publish date is strictly after the captured latest item. -/
def diffNew : List RSSItem → RSSItem → Except GoPanic (List RSSItem)
  | [], _ => .ok []
  | it :: rest, latest =>
    match goAfter it.pubDate latest.pubDate with
    | .error p => .error p
    | .ok b =>
      match diffNew rest latest with
      | .error p => .error p
      | .ok tl => .ok (if b then it :: tl else tl)

/-! ## The source-kind discriminator -/

/-- UTF-8 byte width of one character (Go string indexing is by byte). -/
def charUTF8Len (c : Char) : Nat :=
  if c.toNat < 128 then 1
  else if c.toNat < 2048 then 2
  else if c.toNat < 65536 then 3
  else 4

/-- len(s) for a Go string: its UTF-8 byte length. -/
def byteLen (s : String) : Nat := (s.toList.map charUTF8Len).sum

/-- The characters of the network prefix. -/
def httpChars : List Char := ['h', 't', 't', 'p']

/-- source[:4] == "http": slicing a string shorter than four bytes
faults; otherwise the four-byte prefix is compared against "http"
(the byte comparison succeeds exactly when the first four characters
are those ASCII letters). -/
def sourceKind4 (s : String) : Except GoPanic Bool :=
  if byteLen s < 4 then .error .sliceBounds
  else .ok (decide (s.toList.take 4 = httpChars))

/-! ## Update -/

/-- The errors Update can return. -/
inductive UpdErr
  | emptySource
  | fetchFailed (e : RssError)
deriving DecidableEq

/-- Result of one Update call: a runtime fault, an error together with
the (unchanged) state, or success with the new state and the list of
newly observed items. -/
inductive UpdateResult
  | panicked (p : GoPanic)
  | failed (e : UpdErr) (post : RSS)
  | ok (post : RSS) (newItems : List RSSItem)
deriving DecidableEq

/-- rss.Update(): capture the prior latest item, reject an empty
source, discriminate the source kind by its four-byte prefix, re-fetch
and re-parse through the oracle, replace the item sequence and stamp
the last-update time, then diff against the captured latest item. -/
def Update (pre : RSS) (fetchURL fetchFile : String → Except RssError RSS)
    (now : Instant) : UpdateResult :=
  match latestItem pre.channel.items with
  | .error p => .panicked p
  | .ok latest =>
    if pre.source = "" then .failed .emptySource pre
    else
      match sourceKind4 pre.source with
      | .error p => .panicked p
      | .ok isHttp =>
        match (if isHttp then fetchURL pre.source else fetchFile pre.source) with
        | .error e => .failed (.fetchFailed e) pre
        | .ok rss2 =>
          let post : RSS :=
            { pre with
              channel := { pre.channel with items := rss2.channel.items }
              lastUpdateAt := now }
          match latest with
          | none => .ok post []
          | some li =>
            match diffNew rss2.channel.items li with
            | .error p => .panicked p
            | .ok newItems => .ok post newItems

/-! ## The polling scheduler -/

/-- One minute as a time.Duration (nanoseconds). -/
def minuteNS : Int := 60 * 1000000000

/-- DefaultTTL = 20 * time.Minute. -/
def DefaultTTL : Int := 20 * minuteNS

/-- The tick interval resolution at the top of rss.Serve: a non-zero
caller argument is used as given; otherwise a positive channel TTL
counts in minutes; otherwise DefaultTTL. -/
def effectiveTTL (ttl : Int) (channelTTL : Int) : Int :=
  if ttl = 0 then
    (if channelTTL > 0 then channelTTL * minuteNS else DefaultTTL)
  else ttl

/-- A scheduler event: the stop signal or one ticker tick. -/
inductive Sig
  | stop
  | tick
deriving DecidableEq

/-- Terminal or intermediate state of the serve loop after consuming a
finite signal trace. -/
inductive Outcome
  | serving (rss : RSS)
  | stopped (rss : RSS)
  | failed (e : UpdErr) (rss : RSS)
  | panicked (p : GoPanic)
deriving DecidableEq

/-- Fan-out of one new-items batch to every registered notifier: one
dispatched batch per callback. -/
def notifierDispatch (n : Nat) (newItems : List RSSItem) : List (List RSSItem) :=
  List.replicate n newItems

/-- The select loop of rss.Serve, folded over a finite signal trace.
A stop signal breaks the loop (returning nil).  A tick runs Update: a
failure is logged and returned, ending the loop; success dispatches
the new items (when any) to every registered notifier and continues
with the updated state. -/
def serveLoop (fetchURL fetchFile : String → Except RssError RSS) (now : Instant) :
    RSS → List Sig → List (List RSSItem) × Outcome
  | rss, [] => ([], .serving rss)
  | rss, .stop :: _ => ([], .stopped rss)
  | rss, .tick :: rest =>
    match Update rss fetchURL fetchFile now with
    | .panicked p => ([], .panicked p)
    | .failed e post => ([], .failed e post)
    | .ok post newItems =>
      let ds := if newItems = [] then [] else notifierDispatch post.notifierCount newItems
      let r := serveLoop fetchURL fetchFile now post rest
      (ds ++ r.1, r.2)

/-- The package-level Serve(source, f, ttl): discriminate the source
by its four-byte prefix with no emptiness check, fetch and parse,
register the notifier, dispatch the whole initial item sequence once
when it is non-empty, then enter the serve loop.  The ttl argument
only affects real-time cadence, which the trace model abstracts. -/
def pkgServe (source : String) (fetchURL fetchFile : String → Except RssError RSS)
    (now : Instant) (_ttl : Int) (sigs : List Sig) :
    Except GoPanic (Except RssError (List (List RSSItem) × Outcome)) :=
  match sourceKind4 source with
  | .error p => .error p
  | .ok isHttp =>
    match (if isHttp then fetchURL source else fetchFile source) with
    | .error e => .ok (.error e)
    | .ok rss =>
      let rss1 : RSS := { rss with notifierCount := rss.notifierCount + 1 }
      let ds0 := if rss1.channel.items = [] then [] else [rss1.channel.items]
      let r := serveLoop fetchURL fetchFile now rss1 sigs
      .ok (.ok (ds0 ++ r.1, r.2))

/-! ## The date normalizer (RFC822.UnmarshalXML)

The two accepted layouts are "Mon, 02 Jan 2006 15:04:05 MST" and
"Mon, 02 Jan 2006 15:04:05 -0700"; the element text is tried against
each in order and the first successful parse wins.  The functions
below embed the parsing of these two fixed layouts: name matching is
ASCII case-insensitive, the day is exactly two digits, the year
exactly four, the hour one or two digits, minutes and seconds exactly
two, with range checks on hour, minute, second and day of month.  A
three-letter upper-case zone abbreviation resolves to offset zero (no
zone database is consulted), and a numeric zone is a sign followed by
four digits giving an hour and minute offset. -/

/-- Lower-case an ASCII letter code, as the case-insensitive name
matcher of the time package does. -/
def lowerNat (c : Char) : Nat :=
  if 65 ≤ c.toNat ∧ c.toNat ≤ 90 then c.toNat + 32 else c.toNat

/-- Case-insensitive character comparison for layout name matching. -/
def ciEqChar (a b : Char) : Bool := lowerNat a = lowerNat b

/-- Match a name pattern case-insensitively against a prefix of the
input, returning the rest. -/
def matchCI : List Char → List Char → Option (List Char)
  | [], s => some s
  | _ :: _, [] => none
  | p :: ps, c :: cs => if ciEqChar p c then matchCI ps cs else none

/-- Match literal layout characters exactly, returning the rest. -/
def matchLit : List Char → List Char → Option (List Char)
  | [], s => some s
  | _ :: _, [] => none
  | p :: ps, c :: cs => if p = c then matchLit ps cs else none

/-- Try a list of names in order; the first that matches a prefix of
the input wins, yielding its index and the rest of the input. -/
def lookupNameList : List (List Char) → Nat → List Char → Option (Nat × List Char)
  | [], _, _ => none
  | n :: ns, i, s =>
    match matchCI n s with
    | some rest => some (i, rest)
    | none => lookupNameList ns (i + 1) s

def shortDayNames : List (List Char) :=
  [['S','u','n'], ['M','o','n'], ['T','u','e'], ['W','e','d'],
   ['T','h','u'], ['F','r','i'], ['S','a','t']]

def shortMonthNames : List (List Char) :=
  [['J','a','n'], ['F','e','b'], ['M','a','r'], ['A','p','r'],
   ['M','a','y'], ['J','u','n'], ['J','u','l'], ['A','u','g'],
   ['S','e','p'], ['O','c','t'], ['N','o','v'], ['D','e','c']]

/-- The numeric value of an ASCII digit. -/
def digitVal (c : Char) : Option Nat :=
  if '0' ≤ c ∧ c ≤ '9' then some (c.toNat - 48) else none

/-- getnum: two digits, or a single digit when the layout element is
not fixed width. -/
def getnum (fixed : Bool) : List Char → Option (Nat × List Char)
  | [] => none
  | [c1] =>
    match digitVal c1 with
    | some d1 => if fixed then none else some (d1, [])
    | none => none
  | c1 :: c2 :: rest =>
    match digitVal c1, digitVal c2 with
    | some d1, some d2 => some (10 * d1 + d2, rest)
    | some d1, none => if fixed then none else some (d1, c2 :: rest)
    | none, _ => none

/-- A four-digit year. -/
def getnum4 : List Char → Option (Nat × List Char)
  | c1 :: c2 :: c3 :: c4 :: rest =>
    match digitVal c1, digitVal c2, digitVal c3, digitVal c4 with
    | some d1, some d2, some d3, some d4 =>
      some (1000 * d1 + 100 * d2 + 10 * d3 + d4, rest)
    | _, _, _, _ => none
  | _ => none

def isLeapYear (y : Nat) : Bool :=
  (y % 4 = 0 ∧ y % 100 ≠ 0) ∨ y % 400 = 0

def daysInMonth (y m : Nat) : Nat :=
  if m = 2 then (if isLeapYear y then 29 else 28)
  else if m = 4 ∨ m = 6 ∨ m = 9 ∨ m = 11 then 30
  else 31

/-- Days since the Unix epoch of a proleptic Gregorian civil date. -/
def daysFromCivil (y m d : Int) : Int :=
  let y2 : Int := if m ≤ 2 then y - 1 else y
  let era : Int := Int.fdiv y2 400
  let yoe : Int := y2 - era * 400
  let mp : Int := if m ≤ 2 then m + 9 else m - 3
  let doy : Int := (153 * mp + 2) / 5 + (d - 1)
  let doe : Int := yoe * 365 + yoe / 4 - yoe / 100 + doy
  era * 146097 + doe - 719468

/-- The instant of a civil date and UTC time of day, in seconds. -/
def civilSecs (y m d hh mi ss : Nat) : Int :=
  daysFromCivil (Int.ofNat y) (Int.ofNat m) (Int.ofNat d) * 86400 +
    Int.ofNat (hh * 3600 + mi * 60 + ss)

/-- The layout part shared by both accepted layouts, up to and
including the space before the zone: weekday name, ", ", a two-digit
day, the month name, a four-digit year, and the clock time, with the
range checks the time package applies. -/
def parseCommon (s : List Char) : Option ((Nat × Nat × Nat × Nat × Nat × Nat) × List Char) := do
  let (_, s) ← lookupNameList shortDayNames 0 s
  let s ← matchLit [',', ' '] s
  let (d, s) ← getnum true s
  let s ← matchLit [' '] s
  let (mi, s) ← lookupNameList shortMonthNames 0 s
  let m := mi + 1
  let s ← matchLit [' '] s
  let (y, s) ← getnum4 s
  let s ← matchLit [' '] s
  let (hh, s) ← getnum false s
  if hh ≥ 24 then none else
  let s ← matchLit [':'] s
  let (mm, s) ← getnum true s
  if mm ≥ 60 then none else
  let s ← matchLit [':'] s
  let (ss, s) ← getnum true s
  if ss ≥ 60 then none else
  let s ← matchLit [' '] s
  if d < 1 ∨ d > daysInMonth y m then none else
  pure ((y, m, d, hh, mm, ss), s)

def isUpperAscii (c : Char) : Bool := 'A' ≤ c ∧ c ≤ 'Z'

/-- Layout "Mon, 02 Jan 2006 15:04:05 MST": the zone is a three-letter
upper-case abbreviation, which resolves to offset zero since no zone
database is consulted. -/
def parseLayout1 (s : List Char) : Option Int := do
  let ((y, m, d, hh, mm, ss), s) ← parseCommon s
  match s with
  | a :: b :: c :: rest =>
    if isUpperAscii a ∧ isUpperAscii b ∧ isUpperAscii c ∧ rest = [] then
      pure (civilSecs y m d hh mm ss)
    else none
  | _ => none

/-- Layout "Mon, 02 Jan 2006 15:04:05 -0700": the zone is a sign and
four digits; the parsed local time is shifted by the offset to yield
the absolute instant. -/
def parseLayout2 (s : List Char) : Option Int := do
  let ((y, m, d, hh, mm, ss), s) ← parseCommon s
  match s with
  | sg :: h1 :: h2 :: m1 :: m2 :: rest =>
    if rest = [] ∧ (sg = '+' ∨ sg = '-') then do
      let dh1 ← digitVal h1
      let dh2 ← digitVal h2
      let dm1 ← digitVal m1
      let dm2 ← digitVal m2
      let off : Int := Int.ofNat ((10 * dh1 + dh2) * 3600 + (10 * dm1 + dm2) * 60)
      let off := if sg = '-' then -off else off
      pure (civilSecs y m d hh mm ss - off)
    else none
  | _ => none

/-- The ordered layout list rfc822layout. -/
def rfc822layout : List (List Char → Option Int) := [parseLayout1, parseLayout2]

/-- The trial loop of RFC822.UnmarshalXML: try each layout in order,
return the first success, fail only when the list is exhausted. -/
def tryLayouts : List (List Char → Option Int) → List Char → Option Int
  | [], _ => none
  | p :: ps, v =>
    match p v with
    | some t => some t
    | none => tryLayouts ps v

/-- The date normalizer applied to one element text. -/
def unmarshalRFC822 (s : String) : Option Int := tryLayouts rfc822layout s.toList

/-! ## Generic facts about the trimming pass -/

/-- A character surviving at the head of dropWhile fails the predicate. -/
theorem dropWhile_head?_not (p : Char → Bool) :
    ∀ (l : List Char) (c : Char), (l.dropWhile p).head? = some c → p c = false := by
  intro l
  induction l with
  | nil => intro c h; simp at h
  | cons a as ih =>
    intro c h
    rw [List.dropWhile_cons] at h
    by_cases hp : p a
    · rw [if_pos hp] at h
      exact ih c h
    · rw [if_neg hp] at h
      simp only [List.head?_cons, Option.some.injEq] at h
      cases h
      simpa using hp

/-- The last character of a trimmed list is not in the cutset. -/
theorem trimList_getLast?_not (l : List Char) (c : Char)
    (h : (trimList l).getLast? = some c) : isCutChar c = false := by
  unfold trimList at h
  rw [List.getLast?_reverse] at h
  exact dropWhile_head?_not _ _ _ h

/-- The first character of a trimmed list is not in the cutset. -/
theorem trimList_head?_not (l : List Char) (c : Char)
    (h : (trimList l).head? = some c) : isCutChar c = false := by
  unfold trimList at h
  rw [List.head?_reverse] at h
  have hsplit : ((l.dropWhile isCutChar).reverse.takeWhile isCutChar) ++
      ((l.dropWhile isCutChar).reverse.dropWhile isCutChar) =
      (l.dropWhile isCutChar).reverse :=
    List.takeWhile_append_dropWhile _ _
  have h2 : ((l.dropWhile isCutChar).reverse).getLast? = some c := by
    rw [← hsplit, List.getLast?_append, h]
    rfl
  rw [List.getLast?_reverse] at h2
  exact dropWhile_head?_not _ _ _ h2

/-- A string is free of leading and trailing cutset characters. -/
def noEdgeCut (s : String) : Bool :=
  (match s.toList.head? with
   | none => true
   | some c => !isCutChar c) &&
  (match s.toList.getLast? with
   | none => true
   | some c => !isCutChar c)

/-- The output of the trimming pass always satisfies noEdgeCut. -/
theorem noEdgeCut_goTrim (s : String) : noEdgeCut (goTrim s) = true := by
  unfold noEdgeCut goTrim
  rw [Bool.and_eq_true]
  constructor
  · cases h : (String.mk (trimList s.toList)).toList.head? with
    | none => simp [h]
    | some c =>
      have hc : (trimList s.toList).head? = some c := h
      have := trimList_head?_not _ _ hc
      simp [h, this]
  · cases h : (String.mk (trimList s.toList)).toList.getLast? with
    | none => simp [h]
    | some c =>
      have hc : (trimList s.toList).getLast? = some c := h
      have := trimList_getLast?_not _ _ hc
      simp [h, this]

/-! ## Concrete fixtures used by witnesses and counterexamples -/

def emptyItem : RSSItem :=
  { title := "", link := "", description := "", author := "", categories := []
    comments := "", enclosure := none, guid := "", pubDate := none, source := none }

def emptyChannel : RSSChannel :=
  { title := "", link := "", description := "", language := "", copyright := ""
    managingEditor := "", webMaster := "", pubDate := none, lastBuildDate := none
    categories := [], generator := "", docs := "", cloud := none, ttl := 0
    image := none, rating := "", textInput := none, skipHours := [], skipDays := []
    items := [] }

def emptyRSS : RSS :=
  { version := "", channel := emptyChannel, origin := "", source := ""
    lastUpdateAt := 0, notifierCount := 0 }

/-- A local-file source identifier of byte length eight. -/
def srcFile : String := "feed.rss"

/-- An opaque acquisition error value. -/
def boomErr : RssError := "boom"

/-- The empty byte string. -/
def noBytes : String := ""

/-! ## C4 -/

def c4Item : RSSItem := { emptyItem with title := "  story \t", description := "\nbody  " }

def c4Demo : RSS :=
  { emptyRSS with
    channel :=
      { emptyChannel with
        title := " \t  Site \n"
        link := " https://example.com "
        description := "  about \n"
        copyright := " \n c \t "
        items := [c4Item] } }

/-- The normalized form of c4Item after the trimming pass. -/
def c4NormItem : RSSItem :=
  { c4Item with title := goTrim c4Item.title, description := goTrim c4Item.description }

/-- C4 (amended): after a successful parse, the channel title,
description and copyright and every item title and description are
free of leading and trailing space, tab and newline characters; the
channel link, however, is left exactly as decoded and is not trimmed. -/
theorem c4_trimmed_fields (rss : RSS) (b : String) (now : Instant) :
    noEdgeCut (feedNormalize rss b now).channel.title = true ∧
    noEdgeCut (feedNormalize rss b now).channel.description = true ∧
    noEdgeCut (feedNormalize rss b now).channel.copyright = true ∧
    ∀ it, it ∈ (feedNormalize rss b now).channel.items →
      noEdgeCut it.title = true ∧ noEdgeCut it.description = true := by
  refine ⟨noEdgeCut_goTrim _, noEdgeCut_goTrim _, noEdgeCut_goTrim _, ?_⟩
  intro it hit
  unfold feedNormalize at hit
  simp only [List.mem_map] at hit
  obtain ⟨it0, _, rfl⟩ := hit
  exact ⟨noEdgeCut_goTrim _, noEdgeCut_goTrim _⟩

/-- C4 witness: the general statement applied to the concrete feed
c4Demo, including one concrete member of its item list. -/
theorem c4_trimmed_fields_witness :
    noEdgeCut (feedNormalize c4Demo noBytes 0).channel.title = true ∧
    noEdgeCut c4NormItem.title = true := by
  refine ⟨(c4_trimmed_fields c4Demo noBytes 0).1, ?_⟩
  exact ((c4_trimmed_fields c4Demo noBytes 0).2.2.2 c4NormItem (by decide)).1

/-- C4 counterexample: the claim also asserts the channel link carries
no leading or trailing whitespace, but the normalization pass of Feed
never trims the link: parsing a document whose link text is padded
with spaces leaves the padding in place. -/
theorem c4_link_not_trimmed :
    noEdgeCut ((feedNormalize c4Demo noBytes 0).channel.link) = false := by
  decide

/-! ## C6 -/

/-- C6: the effective tick interval of Serve is the caller-supplied
interval when non-zero, else the positive channel TTL in minutes, else
the process-wide default; a declared ttl of 20 resolves to 20 minutes. -/
theorem c6_effective_ttl (ttl channelTTL : Int) :
    (ttl ≠ 0 → effectiveTTL ttl channelTTL = ttl) ∧
    (ttl = 0 → 0 < channelTTL → effectiveTTL ttl channelTTL = channelTTL * minuteNS) ∧
    (ttl = 0 → channelTTL ≤ 0 → effectiveTTL ttl channelTTL = DefaultTTL) ∧
    effectiveTTL 0 20 = 20 * minuteNS := by
  refine ⟨?_, ?_, ?_, by decide⟩
  · intro h
    unfold effectiveTTL
    rw [if_neg h]
  · intro h0 hpos
    unfold effectiveTTL
    rw [if_pos h0, if_pos (by omega : channelTTL > 0)]
  · intro h0 hnp
    unfold effectiveTTL
    rw [if_pos h0, if_neg (by omega : ¬ channelTTL > 0)]

/-- C6 witness: concrete instances of each resolution rule. -/
theorem c6_effective_ttl_witness :
    effectiveTTL 300 20 = 300 ∧
    effectiveTTL 0 20 = 20 * minuteNS ∧
    effectiveTTL 0 0 = DefaultTTL := by
  exact ⟨(c6_effective_ttl 300 20).1 (by decide),
         (c6_effective_ttl 0 20).2.1 rfl (by decide),
         (c6_effective_ttl 0 0).2.2.1 rfl (by decide)⟩

/-! ## Shared oracles and the Update unfolding lemma -/

/-- An acquisition oracle that always yields the same parsed feed. -/
def constFetch (r : RSS) : String → Except RssError RSS := fun _ => .ok r

/-- An acquisition oracle that always fails. -/
def errFetch (e : RssError) : String → Except RssError RSS := fun _ => .error e

/-- The state Update installs on success: the item sequence replaced by
the freshly parsed one and the last-update time restamped; every other
field keeps its prior value. -/
def postOf (pre rss2 : RSS) (now : Instant) : RSS :=
  { pre with
    channel := { pre.channel with items := rss2.channel.items }
    lastUpdateAt := now }

/-- The tail of Update after a successful fetch: the diff against the
captured latest item, if any, over the installed state. -/
def diffStep (latest : Option RSSItem) (pre rss2 : RSS) (now : Instant) : UpdateResult :=
  match latest with
  | none => .ok (postOf pre rss2 now) []
  | some li =>
    match diffNew rss2.channel.items li with
    | .error p => .panicked p
    | .ok newItems => .ok (postOf pre rss2 now) newItems

/-- Under a valid source and a successful fetch, Update reduces to the
state replacement followed by the diff against the captured latest
item. -/
theorem Update_fetch_ok (pre : RSS) (fURL fFile : String → Except RssError RSS)
    (now : Instant) (latest : Option RSSItem) (rss2 : RSS)
    (hl : latestItem pre.channel.items = .ok latest)
    (hs : pre.source ≠ "") (hb : 4 ≤ byteLen pre.source)
    (hu : fURL pre.source = .ok rss2) (hf : fFile pre.source = .ok rss2) :
    Update pre fURL fFile now = diffStep latest pre rss2 now := by
  unfold Update
  rw [hl]
  dsimp only
  rw [if_neg hs]
  unfold sourceKind4
  rw [if_neg (by omega : ¬ byteLen pre.source < 4)]
  dsimp only
  simp only [hu, hf, ite_self]
  cases latest with
  | none => rfl
  | some li => rfl

/-! ## C2 -/

/-- C2: when re-acquisition or re-parsing fails, Update surfaces the
error and the feed state it returns is exactly the prior state: no
field of the feed has been replaced. -/
theorem c2_update_failure_atomic (pre : RSS) (fURL fFile : String → Except RssError RSS)
    (now : Instant) (l : Option RSSItem) (e : RssError)
    (hl : latestItem pre.channel.items = .ok l)
    (hs : pre.source ≠ "") (hb : 4 ≤ byteLen pre.source)
    (hu : fURL pre.source = .error e) (hf : fFile pre.source = .error e) :
    Update pre fURL fFile now = .failed (.fetchFailed e) pre := by
  unfold Update
  rw [hl]
  dsimp only
  rw [if_neg hs]
  unfold sourceKind4
  rw [if_neg (by omega : ¬ byteLen pre.source < 4)]
  dsimp only
  simp only [hu, hf, ite_self]

def c2Item : RSSItem := { emptyItem with pubDate := some 11 }

def c2Pre : RSS :=
  { emptyRSS with
    source := srcFile
    channel := { emptyChannel with items := [c2Item] } }

/-- C2 witness: a concrete feed whose re-fetch fails keeps its state. -/
theorem c2_update_failure_atomic_witness :
    Update c2Pre (errFetch boomErr) (errFetch boomErr) 99 =
      .failed (.fetchFailed boomErr) c2Pre :=
  c2_update_failure_atomic c2Pre (errFetch boomErr) (errFetch boomErr) 99
    (some c2Item) boomErr (by rfl) (by decide) (by decide) (by rfl) (by rfl)

/-! ## C3 -/

/-- C3: when the prior item sequence is empty and acquisition succeeds,
Update returns no new items and no error (the diff step is skipped). -/
theorem c3_update_empty_prior (pre : RSS) (fURL fFile : String → Except RssError RSS)
    (now : Instant) (rss2 : RSS)
    (h0 : pre.channel.items = [])
    (hs : pre.source ≠ "") (hb : 4 ≤ byteLen pre.source)
    (hu : fURL pre.source = .ok rss2) (hf : fFile pre.source = .ok rss2) :
    Update pre fURL fFile now = .ok (postOf pre rss2 now) [] := by
  have hl : latestItem pre.channel.items = .ok none := by rw [h0]; rfl
  rw [Update_fetch_ok pre fURL fFile now none rss2 hl hs hb hu hf]
  rfl

def c3Fresh : RSS :=
  { emptyRSS with channel := { emptyChannel with items := [c2Item] } }

def c3Pre : RSS := { emptyRSS with source := srcFile }

/-- C3 witness: a concrete first update over an empty prior item set. -/
theorem c3_update_empty_prior_witness :
    Update c3Pre (constFetch c3Fresh) (constFetch c3Fresh) 7 =
      .ok (postOf c3Pre c3Fresh 7) [] :=
  c3_update_empty_prior c3Pre (constFetch c3Fresh) (constFetch c3Fresh) 7 c3Fresh
    (by rfl) (by decide) (by decide) (by rfl) (by rfl)

/-! ## C5 -/

/-- C5 (amended): a successful Update replaces the item sequence with
the freshly parsed one and restamps the last-update time, but the rest
of the Channel value is NOT refreshed: title, description, TTL and all
other channel metadata keep their prior values (only Items is
assigned from the fresh parse). -/
theorem c5_update_replaces_items_only (pre : RSS)
    (fURL fFile : String → Except RssError RSS) (now : Instant)
    (rss2 post : RSS) (newItems : List RSSItem)
    (hu : fURL pre.source = .ok rss2) (hf : fFile pre.source = .ok rss2)
    (hok : Update pre fURL fFile now = .ok post newItems) :
    post.channel.items = rss2.channel.items ∧
    post.lastUpdateAt = now ∧
    post.channel.title = pre.channel.title ∧
    post.channel.description = pre.channel.description ∧
    post.channel.ttl = pre.channel.ttl ∧
    post.source = pre.source ∧
    post.version = pre.version := by
  have hpost : post = postOf pre rss2 now := by
    unfold Update at hok
    cases hlat : latestItem pre.channel.items with
    | error p => rw [hlat] at hok; dsimp only at hok; simp at hok
    | ok latest =>
      rw [hlat] at hok
      dsimp only at hok
      by_cases hs : pre.source = ""
      · rw [if_pos hs] at hok; simp at hok
      · rw [if_neg hs] at hok
        unfold sourceKind4 at hok
        by_cases hb : byteLen pre.source < 4
        · rw [if_pos hb] at hok; dsimp only at hok; simp at hok
        · rw [if_neg hb] at hok
          dsimp only at hok
          simp only [hu, hf, ite_self] at hok
          cases latest with
          | none =>
            dsimp only at hok
            simp only [UpdateResult.ok.injEq] at hok
            exact hok.1.symm
          | some li =>
            dsimp only at hok
            cases hd : diffNew rss2.channel.items li with
            | error p => rw [hd] at hok; dsimp only at hok; simp at hok
            | ok ni =>
              rw [hd] at hok
              dsimp only at hok
              simp only [UpdateResult.ok.injEq] at hok
              exact hok.1.symm
  subst hpost
  simp [postOf]

def c5Old : RSSChannel :=
  { emptyChannel with title := "old title", description := "old desc", ttl := 5 }

def c5FreshChannel : RSSChannel :=
  { emptyChannel with title := "new title", description := "new desc", ttl := 99 }

def c5Pre : RSS := { emptyRSS with source := srcFile, channel := c5Old }

def c5Fresh : RSS := { emptyRSS with channel := c5FreshChannel }

/-- C5 witness: the amended statement applied to a concrete feed whose
fresh parse carries different channel metadata. -/
theorem c5_update_replaces_items_only_witness :
    (postOf c5Pre c5Fresh 3).channel.ttl = c5Pre.channel.ttl :=
  (c5_update_replaces_items_only c5Pre (constFetch c5Fresh) (constFetch c5Fresh) 3
    c5Fresh (postOf c5Pre c5Fresh 3) [] rfl rfl (by decide)).2.2.2.2.1

/-- C5 counterexample: the claim says the entire Channel value
(including metadata such as title and TTL) is refreshed from the fresh
parse, but after a successful Update of a feed with channel TTL 5
against a fresh parse with channel TTL 99 the feed still carries TTL 5
and the old title: only Items was replaced. -/
theorem c5_channel_metadata_not_refreshed :
    Update c5Pre (constFetch c5Fresh) (constFetch c5Fresh) 3 =
      .ok (postOf c5Pre c5Fresh 3) [] ∧
    (postOf c5Pre c5Fresh 3).channel.ttl = 5 ∧
    c5Fresh.channel.ttl = 99 ∧
    (postOf c5Pre c5Fresh 3).channel ≠ c5Fresh.channel := by
  decide

/-! ## C1 -/

/-- The publish-date criterion of the diff: a date strictly after the
prior latest date. -/
def strictlyAfter (t0 : Instant) (it : RSSItem) : Bool :=
  match it.pubDate with
  | some t => decide (t > t0)
  | none => false

/-- When every compared item carries a publish date, the diff loop
computes exactly the filter by strict date order. -/
theorem diffNew_all_dated (t0 : Instant) (li : RSSItem) (ht : li.pubDate = some t0) :
    ∀ items : List RSSItem, (∀ it ∈ items, (it.pubDate).isSome) →
      diffNew items li = .ok (items.filter (strictlyAfter t0)) := by
  intro items
  induction items with
  | nil => intro _; rfl
  | cons a as ih =>
    intro hall
    have ha : (a.pubDate).isSome := hall a (by simp)
    obtain ⟨ta, hta⟩ := Option.isSome_iff_exists.mp ha
    have hsa : strictlyAfter t0 a = decide (ta > t0) := by
      unfold strictlyAfter
      rw [hta]
    unfold diffNew
    rw [hta, ht]
    dsimp only [goAfter]
    rw [ih (fun it hit => hall it (by simp [hit]))]
    dsimp only
    rw [List.filter_cons, hsa]

/-- C1 (amended): when the prior latest item has publish date T0 and
every freshly parsed item carries a publish date, Update reports as
new exactly the fresh items whose date is strictly after T0 (a date
equal to T0 is not new).  A fresh item with NO publish date is not
skipped, however: the diff dereferences its nil date and the call
faults (see the counterexample). -/
theorem c1_new_items_strictly_after (pre : RSS)
    (fURL fFile : String → Except RssError RSS) (now : Instant)
    (li : RSSItem) (t0 : Instant) (rss2 : RSS)
    (hl : latestItem pre.channel.items = .ok (some li))
    (ht : li.pubDate = some t0)
    (hs : pre.source ≠ "") (hb : 4 ≤ byteLen pre.source)
    (hu : fURL pre.source = .ok rss2) (hf : fFile pre.source = .ok rss2)
    (hdates : ∀ it ∈ rss2.channel.items, (it.pubDate).isSome) :
    Update pre fURL fFile now =
      .ok (postOf pre rss2 now) (rss2.channel.items.filter (strictlyAfter t0)) := by
  rw [Update_fetch_ok pre fURL fFile now (some li) rss2 hl hs hb hu hf]
  unfold diffStep
  dsimp only
  rw [diffNew_all_dated t0 li ht rss2.channel.items hdates]

def c1Old : RSSItem := { emptyItem with pubDate := some 5 }

def c1Pre : RSS :=
  { emptyRSS with
    source := srcFile
    channel := { emptyChannel with items := [c1Old] } }

def c1FreshItems : List RSSItem :=
  [{ emptyItem with pubDate := some 9 },
   { emptyItem with pubDate := some 5 },
   { emptyItem with pubDate := some 2 }]

def c1Fresh : RSS :=
  { emptyRSS with channel := { emptyChannel with items := c1FreshItems } }

/-- C1 witness: against a prior latest date of 5, fresh items dated
9, 5 and 2 yield exactly the single item dated 9 as new. -/
theorem c1_new_items_strictly_after_witness :
    Update c1Pre (constFetch c1Fresh) (constFetch c1Fresh) 77 =
      .ok (postOf c1Pre c1Fresh 77) (c1FreshItems.filter (strictlyAfter 5)) :=
  c1_new_items_strictly_after c1Pre (constFetch c1Fresh) (constFetch c1Fresh) 77
    c1Old 5 c1Fresh (by rfl) (by rfl) (by decide) (by decide) (by rfl) (by rfl) (by decide)

def c1FreshDateless : RSS :=
  { emptyRSS with channel := { emptyChannel with items := [emptyItem] } }

/-- C1 counterexample: the claim says an item with no publish date is
never reported as new, but when the fresh parse contains an item whose
publish date is absent (a nil date pointer) the diff dereferences it
and the call faults with a nil dereference instead of returning a
successful empty diff. -/
theorem c1_dateless_fresh_item_faults :
    Update c1Pre (constFetch c1FreshDateless) (constFetch c1FreshDateless) 0 =
      .panicked .nilDeref ∧
    Update c1Pre (constFetch c1FreshDateless) (constFetch c1FreshDateless) 0 ≠
      .ok (postOf c1Pre c1FreshDateless 0) [] := by
  decide

/-! ## C7 -/

/-- C7: whenever the polling loop is still serving and the next tick's
Update fails, the loop terminates immediately, returns that error, and
performs no further dispatches and no further ticks: the result is the
same for every continuation of the signal trace. -/
theorem c7_update_failure_stops_loop (fURL fFile : String → Except RssError RSS)
    (now : Instant) (sigs rest : List Sig) (pre cur post : RSS)
    (ds : List (List RSSItem)) (e : UpdErr)
    (hrun : serveLoop fURL fFile now pre sigs = (ds, .serving cur))
    (hfail : Update cur fURL fFile now = .failed e post) :
    serveLoop fURL fFile now pre (sigs ++ Sig.tick :: rest) = (ds, .failed e post) := by
  induction sigs generalizing pre ds with
  | nil =>
    unfold serveLoop at hrun
    simp only [Prod.mk.injEq] at hrun
    obtain ⟨hds, hout⟩ := hrun
    cases hout
    subst hds
    rw [List.nil_append]
    unfold serveLoop
    rw [hfail]
  | cons s ss ih =>
    cases s with
    | stop =>
      unfold serveLoop at hrun
      simp only [Prod.mk.injEq] at hrun
      exact absurd hrun.2 (by simp)
    | tick =>
      rw [List.cons_append]
      unfold serveLoop at hrun ⊢
      cases hu : Update pre fURL fFile now with
      | panicked p =>
        rw [hu] at hrun
        dsimp only at hrun
        simp at hrun
      | failed e2 post2 =>
        rw [hu] at hrun
        dsimp only at hrun
        simp at hrun
      | ok post2 newItems =>
        rw [hu] at hrun
        dsimp only at hrun
        rcases hserve : serveLoop fURL fFile now post2 ss with ⟨ds3, out⟩
        rw [hserve] at hrun
        simp only [Prod.mk.injEq] at hrun
        obtain ⟨hds, hout⟩ := hrun
        have hstep := ih post2 ds3 (by rw [hserve, hout])
        dsimp only
        rw [hstep]
        subst hds
        rfl

def c7Pre : RSS := { emptyRSS with source := srcFile }

/-- C7 witness: with a failing fetch oracle, the serve loop fails at
its first tick and ignores the rest of the trace. -/
theorem c7_update_failure_stops_loop_witness :
    serveLoop (errFetch boomErr) (errFetch boomErr) 0 c7Pre
        ([] ++ Sig.tick :: [Sig.tick, Sig.stop]) =
      ([], .failed (.fetchFailed boomErr) c7Pre) :=
  c7_update_failure_stops_loop (errFetch boomErr) (errFetch boomErr) 0
    [] [Sig.tick, Sig.stop] c7Pre c7Pre c7Pre [] (.fetchFailed boomErr)
    (by rfl) (by decide)

/-! ## C9 -/

/-- C9: a feed whose source is non-empty but shorter than four bytes
makes Update fault with the slice-bounds panic of the four-byte prefix
slice rather than return an acquisition or configuration error; the
package-level Serve applies the same slice with no emptiness check at
all, so it faults for every source shorter than four bytes, the empty
string included. -/
theorem c9_short_source_panics :
    (∀ (pre : RSS) (fURL fFile : String → Except RssError RSS) (now : Instant)
        (l : Option RSSItem),
      pre.source ≠ "" → byteLen pre.source < 4 →
      latestItem pre.channel.items = .ok l →
      Update pre fURL fFile now = .panicked .sliceBounds) ∧
    (∀ (source : String) (fURL fFile : String → Except RssError RSS)
        (now ttl : Int) (sigs : List Sig),
      byteLen source < 4 →
      pkgServe source fURL fFile now ttl sigs = .error .sliceBounds) := by
  constructor
  · intro pre fURL fFile now l hs hb hl
    unfold Update
    rw [hl]
    dsimp only
    rw [if_neg hs]
    unfold sourceKind4
    rw [if_pos hb]
  · intro source fURL fFile now ttl sigs hb
    unfold pkgServe sourceKind4
    rw [if_pos hb]

def srcAB : String := "ab"

def c9Pre : RSS := { emptyRSS with source := srcAB }

/-- C9 witness: the two-byte source faults in Update, and the empty
source faults in the package-level Serve. -/
theorem c9_short_source_panics_witness :
    Update c9Pre (errFetch boomErr) (errFetch boomErr) 0 = .panicked .sliceBounds ∧
    pkgServe noBytes (errFetch boomErr) (errFetch boomErr) 0 0 [] =
      .error .sliceBounds :=
  ⟨c9_short_source_panics.1 c9Pre (errFetch boomErr) (errFetch boomErr) 0 none
      (by decide) (by decide) (by rfl),
   c9_short_source_panics.2 noBytes (errFetch boomErr) (errFetch boomErr) 0 0 []
      (by decide)⟩

/-! ## C10 -/

/-- C10: after a successful initial acquisition and parse, the
package-level Serve dispatches the entire initial item sequence to the
registered notifier exactly once, ahead of any tick dispatch, whenever
that sequence is non-empty. -/
theorem c10_initial_dispatch (source : String)
    (fURL fFile : String → Except RssError RSS) (now ttl : Int)
    (sigs : List Sig) (rss : RSS)
    (hb : 4 ≤ byteLen source)
    (hu : fURL source = .ok rss) (hf : fFile source = .ok rss)
    (hne : rss.channel.items ≠ []) :
    pkgServe source fURL fFile now ttl sigs =
      .ok (.ok (rss.channel.items ::
          (serveLoop fURL fFile now
            { rss with notifierCount := rss.notifierCount + 1 } sigs).1,
        (serveLoop fURL fFile now
            { rss with notifierCount := rss.notifierCount + 1 } sigs).2)) := by
  unfold pkgServe sourceKind4
  rw [if_neg (by omega : ¬ byteLen source < 4)]
  dsimp only
  simp only [hu, hf, ite_self]
  rw [if_neg hne]
  rfl

def c10Rss : RSS :=
  { emptyRSS with channel := { emptyChannel with items := [c2Item] } }

def c10Rss1 : RSS := { c10Rss with notifierCount := c10Rss.notifierCount + 1 }

/-- C10 witness: a concrete serve over a one-item feed dispatches that
item list once before the (empty) tick trace. -/
theorem c10_initial_dispatch_witness :
    pkgServe srcFile (constFetch c10Rss) (constFetch c10Rss) 0 0 [] =
      .ok (.ok (c10Rss.channel.items ::
          (serveLoop (constFetch c10Rss) (constFetch c10Rss) 0 c10Rss1 []).1,
        (serveLoop (constFetch c10Rss) (constFetch c10Rss) 0 c10Rss1 []).2)) :=
  c10_initial_dispatch srcFile (constFetch c10Rss) (constFetch c10Rss) 0 0 []
    c10Rss (by decide) (by rfl) (by rfl) (by decide)

/-! ## C8 -/

/-- The RFC822 literal from the sample document. -/
def sampleDate : String := "Fri, 11 May 2018 16:28:39 +0800"

/-- C8: the date normalizer tries the zone-abbreviation layout and then
the numeric-offset layout in order, returns the instant of the first
layout that parses, and fails only when both are exhausted; the sample
literal parses (under the numeric-offset layout) to exactly the UTC
instant 2018-05-11T08:28:39Z. -/
theorem c8_date_normalizer :
    (∀ (s : String) (t : Int),
      parseLayout1 s.toList = some t → unmarshalRFC822 s = some t) ∧
    (∀ (s : String) (t : Int),
      parseLayout1 s.toList = none → parseLayout2 s.toList = some t →
      unmarshalRFC822 s = some t) ∧
    (∀ s : String,
      parseLayout1 s.toList = none → parseLayout2 s.toList = none →
      unmarshalRFC822 s = none) ∧
    unmarshalRFC822 sampleDate = some (civilSecs 2018 5 11 8 28 39) := by
  refine ⟨?_, ?_, ?_, by decide⟩
  · intro s t h1
    unfold unmarshalRFC822 rfc822layout tryLayouts
    rw [h1]
  · intro s t h1 h2
    unfold unmarshalRFC822 rfc822layout tryLayouts
    rw [h1]
    dsimp only
    unfold tryLayouts
    rw [h2]
  · intro s h1 h2
    unfold unmarshalRFC822 rfc822layout tryLayouts
    rw [h1]
    dsimp only
    unfold tryLayouts
    rw [h2]
    rfl

/-- An RFC822 literal in the zone-abbreviation layout. -/
def gmtDate : String := "Fri, 11 May 2018 16:28:39 GMT"

/-- A string no layout accepts. -/
def badDate : String := "2018-05-11T08:28:39Z"

/-- C8 witness: each trial rule applied at a concrete literal. -/
theorem c8_date_normalizer_witness :
    unmarshalRFC822 gmtDate = some (civilSecs 2018 5 11 16 28 39) ∧
    unmarshalRFC822 sampleDate = some (civilSecs 2018 5 11 8 28 39) ∧
    unmarshalRFC822 badDate = none :=
  ⟨c8_date_normalizer.1 gmtDate (civilSecs 2018 5 11 16 28 39) (by decide),
   c8_date_normalizer.2.1 sampleDate (civilSecs 2018 5 11 8 28 39) (by decide) (by decide),
   c8_date_normalizer.2.2.1 badDate (by decide) (by decide)⟩

end Rssutil
